import Mathlib

/-!
Formal model of the Star-Shell package lifecycle manager (star/star.go).

The Go module manages GitHub release binaries: `Install` resolves the latest
release of a `user/repo` project, picks the first asset whose lower-cased name
contains the `GOOS-GOARCH` platform token, downloads it into `./stars`, and
appends a record to the JSON manifest `./stars/.stars`.  `Uninstall` looks the
identity up in the manifest, deletes the recorded file and rewrites the
manifest without that identity.  `Update` is `Uninstall` then `Install`.

The embedding is installDir-relative: the filesystem is the manifest file's
content (absent, garbage bytes, or a JSON document) together with the list of
file names present in the install directory.  The network is an oracle in the
environment `Env`; `Install` additionally records the URLs it fetched, in
order, so that "no network call was made" is expressible.  JSON is modelled
as a value tree (Go's encoder/decoder pair on well-formed UTF-8 strings);
`encoding/json` encodes the nil slice this program produces for an empty
package list as JSON `null`, and decodes `null` back into a nil slice, which
the model keeps faithfully.
-/

/-- Mirrors Go `star.Package`: identity `(user, repo)` plus install metadata. -/
structure Package where
  user : String
  repo : String
  version : String
  file : String
deriving Repr, DecidableEq

/-- JSON value tree, the image of Go `encoding/json` on this program's data. -/
inductive Json where
  | null : Json
  | str : String → Json
  | num : Int → Json
  | arr : List Json → Json
  | obj : List (String × Json) → Json

/-- Raw content of a file or HTTP body: a JSON document or undecodable bytes. -/
inductive RawData where
  | json : Json → RawData
  | garbage : RawData

/-- Errors of star/star.go, one constructor per distinct `fmt.Errorf` site;
wrapping constructors keep the `%w` chains the claims distinguish. -/
inductive StarError where
  | unsupportedPlatform : StarError
  | fetchTransport : StarError
  | fetchStatus : Nat → StarError
  | releaseDecodeFailed : StarError
  | noCompatibleAsset : String → StarError
  | mkdirFailed : StarError
  | downloadTransport : StarError
  | downloadStatus : Nat → StarError
  | notExist : StarError
  | manifestDecodeFailed : StarError
  | packageNotFound : String → String → StarError
  | removeFailed : StarError
  | listFailed : StarError → StarError
  | updateStarsFailed : StarError → StarError
  | uninstallFailed : StarError → StarError
deriving Repr, DecidableEq

/-- The filesystem state the package manager touches: the manifest file
`./stars/.stars` (`none` = file absent) and the names of the files in the
install directory `./stars`. -/
structure FS where
  manifest : Option RawData
  files : List String

/-- Go `json` encoding of one `Package` (field tags user/repo/version/file). -/
def encodePackage (p : Package) : Json :=
  .obj [("user", .str p.user), ("repo", .str p.repo),
        ("version", .str p.version), ("file", .str p.file)]

/-- Go `json` encoding of a `[]Package`.  The program reaches
`saveInstalledPackages` with the nil slice exactly when the list is empty
(`Uninstall`'s filter loop), and `encoding/json` marshals nil as `null`. -/
def encodeManifest : List Package → Json
  | [] => .null
  | ps => .arr (ps.map encodePackage)

/-- Decode a string-typed struct field: a missing key or JSON `null` leaves
the Go zero value `""`; a non-string value is a type error. -/
def getStrField (fields : List (String × Json)) (key : String) : Except Unit String :=
  match fields.lookup key with
  | none => .ok ""
  | some (.str s) => .ok s
  | some .null => .ok ""
  | some _ => .error ()

/-- Go `json` decoding of one `Package` value (`null` leaves the zero struct). -/
def decodePackage : Json → Except Unit Package
  | .null => .ok ⟨"", "", "", ""⟩
  | .obj fields => do
    let u ← getStrField fields "user"
    let r ← getStrField fields "repo"
    let v ← getStrField fields "version"
    let f ← getStrField fields "file"
    .ok ⟨u, r, v, f⟩
  | _ => .error ()

/-- Element-wise decoding of a JSON array into packages. -/
def decodePackageList : List Json → Except Unit (List Package)
  | [] => .ok []
  | j :: rest => do
    let p ← decodePackage j
    let ps ← decodePackageList rest
    .ok (p :: ps)

/-- Go `json` decoding of a `[]Package`: `null` yields the nil (empty) slice. -/
def decodeManifest : Json → Except Unit (List Package)
  | .null => .ok []
  | .arr es => decodePackageList es
  | _ => .error ()

/-- Mirrors `listInstalledPackages`: `os.Open` on a missing manifest returns
the `os.ErrNotExist` path error, which the function propagates as-is; an
existing file that fails to decode is wrapped as a decode failure. -/
def listInstalledPackages (m : Option RawData) : Except StarError (List Package) :=
  match m with
  | none => .error .notExist
  | some .garbage => .error .manifestDecodeFailed
  | some (.json j) =>
    match decodeManifest j with
    | .ok pkgs => .ok pkgs
    | .error _ => .error .manifestDecodeFailed

/-- Mirrors `saveInstalledPackages`: truncate-and-rewrite of the manifest
file with the encoded list (`os.Create` on the managed path succeeds). -/
def saveInstalledPackages (pkgs : List Package) : RawData :=
  .json (encodeManifest pkgs)

/-- Mirrors `ListInstalledStars`, a direct pass-through of
`listInstalledPackages` including its errors. -/
def ListInstalledStars (fs : FS) : Except StarError (List Package) :=
  listInstalledPackages fs.manifest

/-- Mirrors `updateStarsFile`: load (tolerating only `os.ErrNotExist`, which
leaves the nil list), append the new record, save. -/
def updateStarsFile (pkg : Package) (fs : FS) : Option StarError × FS :=
  match listInstalledPackages fs.manifest with
  | .error e =>
    if e = .notExist then
      (none, { fs with manifest := some (saveInstalledPackages ([] ++ [pkg])) })
    else
      (some (.listFailed e), fs)
  | .ok packages =>
    (none, { fs with manifest := some (saveInstalledPackages (packages ++ [pkg])) })

/-- Mirrors `Uninstall`: load the manifest, find the first record with the
requested identity (the `filePath == ""` sentinel in the Go code is exactly
"no match", since `filepath.Join(installDir, f)` is never empty), `os.Remove`
its file (failing if the file is absent), then rewrite the manifest with every
record of that identity filtered out. -/
def Uninstall (fs : FS) (pkg : Package) : Option StarError × FS :=
  match listInstalledPackages fs.manifest with
  | .error e => (some (.listFailed e), fs)
  | .ok packages =>
    match packages.find? (fun p => p.user == pkg.user && p.repo == pkg.repo) with
    | none => (some (.packageNotFound pkg.user pkg.repo), fs)
    | some p =>
      if p.file ∈ fs.files then
        (none,
          { manifest := some (saveInstalledPackages
              (packages.filter (fun q => !(q.user == pkg.user && q.repo == pkg.repo)))),
            files := fs.files.erase p.file })
      else
        (some .removeFailed, fs)

/-- Model of Go `strings.Contains` on rune lists: does `t` occur as a
contiguous infix of `s` (the empty needle always occurs)? -/
def charsContain (t : List Char) : List Char → Bool
  | [] => t.isEmpty
  | c :: s => t.isPrefixOf (c :: s) || charsContain t s

/-- Go `strings.Contains s t`. -/
def strContains (s t : String) : Bool :=
  charsContain t.toList s.toList

/-- Go `strings.ToLower` (the program only compares ASCII release-asset
names and platform tokens). -/
def strToLower (s : String) : String :=
  ⟨s.data.map Char.toLower⟩

/-- Is every character of the string already lower-case? -/
def isLowerStr (s : String) : Bool :=
  s.data.all (fun c => c.toLower == c)

/-- Mirrors `getPlatform`: the hyphen-joined `runtime.GOOS` and
`runtime.GOARCH` of the host. -/
def getPlatform (os arch : String) : String :=
  os ++ "-" ++ arch

/-- The release-metadata URL `Install` queries for an identity. -/
def releaseURL (pkg : Package) : String :=
  "https://api.github.com/repos/" ++ pkg.user ++ "/" ++ pkg.repo ++ "/releases/latest"

/-- One asset of a GitHub release: display name and download URL. -/
structure ReleaseAsset where
  name : String
  url : String
deriving Repr, DecidableEq

/-- The decoded release document `Install` consumes. -/
structure ReleaseData where
  assets : List ReleaseAsset
  tagName : String
deriving Repr, DecidableEq

/-- Outcome of one `http.Get`: transport failure, or a response with a
status code and a body. -/
inductive HttpResult (α : Type) where
  | transportError : HttpResult α
  | response : Nat → α → HttpResult α

/-- Go `json` decoding of one release asset (missing fields leave `""`). -/
def decodeAsset : Json → Except Unit ReleaseAsset
  | .null => .ok ⟨"", ""⟩
  | .obj fields => do
    let n ← getStrField fields "name"
    let u ← getStrField fields "browser_download_url"
    .ok ⟨n, u⟩
  | _ => .error ()

/-- Element-wise decoding of the asset array. -/
def decodeAssetList : List Json → Except Unit (List ReleaseAsset)
  | [] => .ok []
  | j :: rest => do
    let a ← decodeAsset j
    let l ← decodeAssetList rest
    .ok (a :: l)

/-- Go `json` decoding of the `assets` field value. -/
def decodeAssets : Json → Except Unit (List ReleaseAsset)
  | .null => .ok []
  | .arr es => decodeAssetList es
  | _ => .error ()

/-- Go `json` decoding of the release document into `Install`'s anonymous
struct (a missing `assets` key leaves the nil slice, a missing `tag_name`
leaves `""`). -/
def decodeRelease : Json → Except Unit ReleaseData
  | .null => .ok ⟨[], ""⟩
  | .obj fields => do
    let assets ←
      match fields.lookup "assets" with
      | none => .ok []
      | some j => decodeAssets j
    let tag ← getStrField fields "tag_name"
    .ok ⟨assets, tag⟩
  | _ => .error ()

/-- Decode an HTTP body into release data (undecodable bytes are the
`json.Decoder.Decode` error `Install` wraps). -/
def decodeBody : RawData → Except Unit ReleaseData
  | .garbage => .error ()
  | .json j => decodeRelease j

/-- The ambient environment of `Install`: the host platform strings, the
response the release endpoint would give, the response each download URL
would give, and whether `os.MkdirAll` on the install directory succeeds. -/
structure Env where
  os : String
  arch : String
  releaseResp : HttpResult RawData
  downloadResp : String → HttpResult Unit
  mkdirOk : Bool

/-- Effect of `os.Create` + `io.Copy` at a path: the name is present
afterwards (a truncated rewrite if it already existed). -/
def writeFile (name : String) (files : List String) : List String :=
  if name ∈ files then files else files ++ [name]

/-- Result of an `Install` run: the returned error (`none` = success), the
final filesystem, and the URLs fetched over the network, in order. -/
structure InstallOutcome where
  result : Option StarError
  fs : FS
  calls : List String

/-- Mirrors `Install`: platform guard, release fetch and decode, first-match
asset scan (the loop sets `downloadURL` and `pkg.File` at the first asset
whose lower-cased name contains the platform token, and the later
`downloadURL == ""` test is the no-match sentinel — which also fires when the
matched asset's URL is the empty string), tag assignment, `MkdirAll`,
download, and the manifest append via `updateStarsFile`. -/
def Install (env : Env) (fs : FS) (pkg : Package) : InstallOutcome :=
  let platform := getPlatform env.os env.arch
  if platform == "unknown-unknown" then
    ⟨some .unsupportedPlatform, fs, []⟩
  else
    let url := releaseURL pkg
    match env.releaseResp with
    | .transportError => ⟨some .fetchTransport, fs, [url]⟩
    | .response status body =>
      if status != 200 then
        ⟨some (.fetchStatus status), fs, [url]⟩
      else
        match decodeBody body with
        | .error _ => ⟨some .releaseDecodeFailed, fs, [url]⟩
        | .ok rd =>
          let hit := rd.assets.find? (fun a => strContains (strToLower a.name) platform)
          let downloadURL := match hit with | some a => a.url | none => ""
          let file1 := match hit with | some a => a.name | none => pkg.file
          if downloadURL == "" then
            ⟨some (.noCompatibleAsset platform), fs, [url]⟩
          else
            let pkg2 : Package := { pkg with version := rd.tagName, file := file1 }
            if !env.mkdirOk then
              ⟨some .mkdirFailed, fs, [url]⟩
            else
              match env.downloadResp downloadURL with
              | .transportError => ⟨some .downloadTransport, fs, [url, downloadURL]⟩
              | .response dstatus _ =>
                if dstatus != 200 then
                  ⟨some (.downloadStatus dstatus), fs, [url, downloadURL]⟩
                else
                  let fs1 : FS := { fs with files := writeFile pkg2.file fs.files }
                  let r := updateStarsFile pkg2 fs1
                  ⟨r.1.map StarError.updateStarsFailed, r.2, [url, downloadURL]⟩

/-- Mirrors `Update`: `Uninstall` then `Install` of the same identity; an
`Uninstall` failure is wrapped and no network call is made. -/
def Update (env : Env) (fs : FS) (pkg : Package) : InstallOutcome :=
  match Uninstall fs pkg with
  | (some e, fs1) => ⟨some (.uninstallFailed e), fs1, []⟩
  | (none, fs1) => Install env fs1 pkg

/-- Release document of the spec's worked scenario: a darwin asset then a
linux asset, whose download URL is the parameter. -/
def demoRelease (url : String) : Json :=
  .obj [("tag_name", .str "v1.0.0"),
        ("assets", .arr
          [.obj [("name", .str "tool-darwin-amd64.tar.gz"),
                 ("browser_download_url", .str "https://dl.example/darwin")],
           .obj [("name", .str "tool-linux-amd64.tar.gz"),
                 ("browser_download_url", .str url)]])]

/-- The decoded form of `demoRelease`. -/
def demoReleaseData (url : String) : ReleaseData :=
  ⟨[⟨"tool-darwin-amd64.tar.gz", "https://dl.example/darwin"⟩,
    ⟨"tool-linux-amd64.tar.gz", url⟩], "v1.0.0"⟩

/-- A host environment serving `demoRelease` with the given OS/arch pair. -/
def demoEnv (os arch url : String) : Env :=
  ⟨os, arch, .response 200 (.json (demoRelease url)), fun _ => .response 200 (), true⟩

/-- The identity being installed in the worked scenarios. -/
def demoPkg : Package :=
  ⟨"alice", "tool", "", ""⟩

/-- A manifest record for `demoPkg`'s identity as a completed install. -/
def demoRecord : Package :=
  ⟨"alice", "tool", "v1", "tool-linux-amd64"⟩

/-- A `linux-amd64` host whose release endpoint answers 404. -/
def demoEnv404 : Env :=
  ⟨"linux", "amd64", .response 404 .garbage, fun _ => .response 200 (), true⟩

/-- A state with `demoRecord` installed: manifest entry plus its file. -/
def demoFS : FS :=
  ⟨some (saveInstalledPackages [demoRecord]), ["tool-linux-amd64"]⟩

/-- Round-trip of one encoded package. -/
theorem decodePackage_encodePackage (p : Package) :
    decodePackage (encodePackage p) = .ok p := by
  cases p
  rfl

/-- Round-trip of an encoded package list, element-wise. -/
theorem decodePackageList_map_encode (l : List Package) :
    decodePackageList (l.map encodePackage) = .ok l := by
  induction l with
  | nil => rfl
  | cons p rest ih =>
    simp only [List.map_cons, decodePackageList, decodePackage_encodePackage, ih]
    rfl

/-- Round-trip of an encoded manifest, including `null` for the empty list. -/
theorem decodeManifest_encodeManifest (l : List Package) :
    decodeManifest (encodeManifest l) = .ok l := by
  cases l with
  | nil => rfl
  | cons p rest =>
    simp only [encodeManifest, decodeManifest]
    exact decodePackageList_map_encode (p :: rest)

/-- Loading a just-saved manifest recovers the saved records. -/
theorem listInstalledPackages_save (pkgs : List Package) :
    listInstalledPackages (some (saveInstalledPackages pkgs)) = .ok pkgs := by
  simp only [listInstalledPackages, saveInstalledPackages, decodeManifest_encodeManifest]

/-- C9: saving any sequence of package records to the manifest file and
loading it back yields exactly the same records in the same order with no
error; in particular the empty sequence serializes (as JSON `null`, Go's
encoding of the nil slice) to a value that decodes back to the empty state. -/
theorem save_load_roundtrip (pkgs : List Package) (files : List String) :
    ListInstalledStars ⟨some (saveInstalledPackages pkgs), files⟩ = .ok pkgs := by
  simp only [ListInstalledStars, listInstalledPackages, saveInstalledPackages,
    decodeManifest_encodeManifest]

/-- C1 counterexample: on a fresh environment (no manifest file at
`./stars/.stars`), `ListInstalledStars` does not return an empty sequence
with no error. -/
theorem listInstalledStars_fresh_not_ok :
    ¬ (ListInstalledStars ⟨none, []⟩ = .ok []) := by
  intro h
  exact Except.noConfusion h

/-- C1 amended: on every environment where the manifest file does not exist,
`ListInstalledStars` returns a nil sequence together with the `os.ErrNotExist`
open error (which only `updateStarsFile` among its callers treats as the
benign empty state); it does not return success. -/
theorem listInstalledStars_fresh (files : List String) :
    ListInstalledStars ⟨none, files⟩ = .error .notExist := rfl

/-- C10: the outcome of `Uninstall` — which file is deleted, which records
are removed, the final state and any error — depends only on the `user` and
`repo` fields of its argument; the `version` and `file` fields are never
consulted. -/
theorem uninstall_depends_only_on_identity (fs : FS) (u r v1 f1 v2 f2 : String) :
    Uninstall fs ⟨u, r, v1, f1⟩ = Uninstall fs ⟨u, r, v2, f2⟩ := rfl

/-- C2: the platform token `Install` computes is the hyphen-joined
`"<os>-<architecture>"` pair, lower-case whenever the runtime's OS and
architecture names are (as all `GOOS`/`GOARCH` values are); and when no
recognized pairing is available (the token is `"unknown-unknown"`),
`Install` fails with the unsupported-platform error before any network
call is attempted. -/
theorem platform_token_spec (env : Env) (fs : FS) (pkg : Package) :
    getPlatform env.os env.arch = env.os ++ "-" ++ env.arch
    ∧ (isLowerStr env.os = true → isLowerStr env.arch = true →
        isLowerStr (getPlatform env.os env.arch) = true)
    ∧ (getPlatform env.os env.arch = "unknown-unknown" →
        (Install env fs pkg).result = some .unsupportedPlatform
        ∧ (Install env fs pkg).calls = []) := by
  refine ⟨rfl, ?_, ?_⟩
  · intro hos harch
    simp only [isLowerStr, getPlatform, String.data_append, List.all_append] at *
    simp [hos, harch]
  · intro h
    constructor <;> simp [Install, h]

/-- C2 witness at the concrete pairs `("linux", "amd64")` and
`("unknown", "unknown")`. -/
theorem platform_token_spec_holds :
    getPlatform "linux" "amd64" = "linux-amd64"
    ∧ isLowerStr (getPlatform "linux" "amd64") = true
    ∧ (Install ⟨"unknown", "unknown", .transportError, fun _ => .transportError, true⟩
        ⟨none, []⟩ ⟨"alice", "tool", "", ""⟩).result = some .unsupportedPlatform
    ∧ (Install ⟨"unknown", "unknown", .transportError, fun _ => .transportError, true⟩
        ⟨none, []⟩ ⟨"alice", "tool", "", ""⟩).calls = [] := by
  have h1 := platform_token_spec
    ⟨"linux", "amd64", .transportError, fun _ => .transportError, true⟩ ⟨none, []⟩
    ⟨"alice", "tool", "", ""⟩
  have h2 := platform_token_spec
    ⟨"unknown", "unknown", .transportError, fun _ => .transportError, true⟩ ⟨none, []⟩
    ⟨"alice", "tool", "", ""⟩
  refine ⟨by decide, h1.2.1 (by decide) (by decide), ?_, ?_⟩
  · exact (h2.2.2 (by decide)).1
  · exact (h2.2.2 (by decide)).2

/-- C5: when the manifest loads and contains a record for the requested
identity but deleting that record's installed file fails (the file is not
present, so `os.Remove` errors), `Uninstall` returns the removal error and
the whole state — in particular the manifest file — is left unchanged: the
manifest is rewritten only after file removal succeeds. -/
theorem uninstall_remove_failure (fs : FS) (pkg : Package)
    (packages : List Package) (p : Package)
    (hL : listInstalledPackages fs.manifest = .ok packages)
    (hF : packages.find? (fun q => q.user == pkg.user && q.repo == pkg.repo) = some p)
    (hMem : p.file ∉ fs.files) :
    Uninstall fs pkg = (some .removeFailed, fs) := by
  simp [Uninstall, hL, hF, hMem]

/-- C5 witness: a one-record manifest whose file is missing on disk. -/
theorem uninstall_remove_failure_holds :
    Uninstall ⟨some (saveInstalledPackages [⟨"alice", "tool", "v1", "tool-linux-amd64"⟩]), []⟩
        ⟨"alice", "tool", "", ""⟩
      = (some .removeFailed,
         ⟨some (saveInstalledPackages [⟨"alice", "tool", "v1", "tool-linux-amd64"⟩]), []⟩) :=
  uninstall_remove_failure _ _ [⟨"alice", "tool", "v1", "tool-linux-amd64"⟩]
    ⟨"alice", "tool", "v1", "tool-linux-amd64"⟩ (by rfl) (by rfl) (by decide)

/-- C6: when the manifest loads, some record matches the requested identity
and its file is present, `Uninstall` succeeds, deletes exactly the single
file named by the first matching record, and rewrites the manifest with all
records of that identity filtered out, preserving every other record in
order; loading the rewritten manifest returns exactly the filtered list. -/
theorem uninstall_success_spec (fs : FS) (pkg : Package)
    (packages : List Package) (p : Package)
    (hL : listInstalledPackages fs.manifest = .ok packages)
    (hF : packages.find? (fun q => q.user == pkg.user && q.repo == pkg.repo) = some p)
    (hMem : p.file ∈ fs.files) :
    Uninstall fs pkg =
      (none,
        ⟨some (saveInstalledPackages
            (packages.filter (fun q => !(q.user == pkg.user && q.repo == pkg.repo)))),
          fs.files.erase p.file⟩)
    ∧ ListInstalledStars (Uninstall fs pkg).2 =
        .ok (packages.filter (fun q => !(q.user == pkg.user && q.repo == pkg.repo))) := by
  have h1 : Uninstall fs pkg =
      (none,
        ⟨some (saveInstalledPackages
            (packages.filter (fun q => !(q.user == pkg.user && q.repo == pkg.repo)))),
          fs.files.erase p.file⟩) := by
    simp [Uninstall, hL, hF, hMem]
  refine ⟨h1, ?_⟩
  rw [h1]
  exact listInstalledPackages_save _

/-- C6 witness: two records of distinct identities, uninstalling one. -/
theorem uninstall_success_spec_holds :
    Uninstall
        ⟨some (saveInstalledPackages
            [⟨"alice", "tool", "v1", "tool-linux-amd64"⟩,
             ⟨"bob", "gadget", "v2", "gadget-linux-amd64"⟩]),
          ["tool-linux-amd64", "gadget-linux-amd64"]⟩
        ⟨"alice", "tool", "", ""⟩
      = (none,
         ⟨some (saveInstalledPackages [⟨"bob", "gadget", "v2", "gadget-linux-amd64"⟩]),
          ["gadget-linux-amd64"]⟩) := by
  have h := uninstall_success_spec
    ⟨some (saveInstalledPackages
        [⟨"alice", "tool", "v1", "tool-linux-amd64"⟩,
         ⟨"bob", "gadget", "v2", "gadget-linux-amd64"⟩]),
      ["tool-linux-amd64", "gadget-linux-amd64"]⟩
    ⟨"alice", "tool", "", ""⟩
    [⟨"alice", "tool", "v1", "tool-linux-amd64"⟩,
     ⟨"bob", "gadget", "v2", "gadget-linux-amd64"⟩]
    ⟨"alice", "tool", "v1", "tool-linux-amd64"⟩ (by rfl) (by rfl) (by decide)
  exact h.1

/-- C7 counterexample: with the manifest file absent (a manifest state with
no record at all, hence none matching the identity), `Uninstall` fails with
the wrapped `os.ErrNotExist` listing error, not with the package-not-found
error the claim requires. -/
theorem uninstall_absent_manifest_error :
    (Uninstall ⟨none, []⟩ ⟨"u", "r", "v", "f"⟩).1 = some (.listFailed .notExist)
    ∧ (Uninstall ⟨none, []⟩ ⟨"u", "r", "v", "f"⟩).1 ≠ some (.packageNotFound "u" "r") :=
  ⟨rfl, by decide⟩

/-- C7 amended: for every manifest state that loads successfully and every
identity with no matching record, `Uninstall` fails with the
package-not-found error naming the identity and leaves the state — in
particular the manifest — unchanged (when the manifest is absent or
undecodable, `Uninstall` instead fails with the wrapped load error, also
leaving the manifest unchanged). -/
theorem uninstall_not_found (fs : FS) (pkg : Package) (packages : List Package)
    (hL : listInstalledPackages fs.manifest = .ok packages)
    (hF : packages.find? (fun q => q.user == pkg.user && q.repo == pkg.repo) = none) :
    Uninstall fs pkg = (some (.packageNotFound pkg.user pkg.repo), fs) := by
  simp [Uninstall, hL, hF]

/-- C7 witness: an empty (saved) manifest and a missing identity. -/
theorem uninstall_not_found_holds :
    Uninstall ⟨some (saveInstalledPackages []), []⟩ ⟨"alice", "tool", "", ""⟩
      = (some (.packageNotFound "alice" "tool"), ⟨some (saveInstalledPackages []), []⟩) :=
  uninstall_not_found _ _ [] (by rfl) (by rfl)

/-- C3 counterexample: on a `linux-amd64` host, an asset list holding one
asset whose name does contain the platform token but whose download URL is
the empty string makes `Install` fail with the no-compatible-asset error and
skip the download, although by the claim the matching asset should have been
selected; the `downloadURL == ""` no-match sentinel also fires here. -/
theorem asset_selection_empty_url :
    strContains (strToLower "tool-linux-amd64.tar.gz") (getPlatform "linux" "amd64") = true
    ∧ (Install (demoEnv "linux" "amd64" "") ⟨none, []⟩ demoPkg).result
        = some (.noCompatibleAsset "linux-amd64")
    ∧ (Install (demoEnv "linux" "amd64" "") ⟨none, []⟩ demoPkg).calls
        = [releaseURL demoPkg] := by
  refine ⟨by decide, by rfl, by rfl⟩

/-- C3 amended: with the release endpoint answering 200 with a decodable
body, `Install` scans the asset list in order: if some asset's lower-cased
name contains the platform token and the first such asset carries a nonempty
download URL, that asset is the one downloaded (the second network call is
its URL); if no asset's name contains the token — or the first matching
asset's download URL is the empty string, which the `downloadURL == ""`
sentinel cannot distinguish from no match — `Install` fails with the
no-compatible-asset error naming the platform token and performs no
download. -/
theorem asset_selection_spec (env : Env) (fs : FS) (pkg : Package)
    (body : RawData) (rd : ReleaseData)
    (hplat : getPlatform env.os env.arch ≠ "unknown-unknown")
    (hresp : env.releaseResp = .response 200 body)
    (hdec : decodeBody body = .ok rd) :
    (∀ a, rd.assets.find?
        (fun x => strContains (strToLower x.name) (getPlatform env.os env.arch)) = some a →
      a.url ≠ "" → env.mkdirOk = true →
      (Install env fs pkg).calls = [releaseURL pkg, a.url])
    ∧ (rd.assets.find?
        (fun x => strContains (strToLower x.name) (getPlatform env.os env.arch)) = none →
      (Install env fs pkg).result = some (.noCompatibleAsset (getPlatform env.os env.arch))
      ∧ (Install env fs pkg).calls = [releaseURL pkg])
    ∧ (∀ a, rd.assets.find?
        (fun x => strContains (strToLower x.name) (getPlatform env.os env.arch)) = some a →
      a.url = "" →
      (Install env fs pkg).result = some (.noCompatibleAsset (getPlatform env.os env.arch))
      ∧ (Install env fs pkg).calls = [releaseURL pkg]) := by
  have hplatb : (getPlatform env.os env.arch == "unknown-unknown") = false := by
    simp [hplat]
  refine ⟨?_, ?_, ?_⟩
  · intro a hfind hurl hmk
    have hurlb : (a.url == "") = false := by simp [hurl]
    unfold Install
    rcases hdl : env.downloadResp a.url with _ | ⟨ds, u⟩
    · simp [hplatb, hresp, hdec, hfind, hurlb, hmk, hdl]
    · by_cases hds : (ds != 200) = true <;>
        simp [hplatb, hresp, hdec, hfind, hurlb, hmk, hdl, hds]
  · intro hfind
    unfold Install
    constructor <;> simp [hplatb, hresp, hdec, hfind]
  · intro a hfind hurl
    unfold Install
    constructor <;> simp [hplatb, hresp, hdec, hfind, hurl]

/-- C3 witness: the spec's worked scenario, once on a matching `linux-amd64`
host (the linux asset is downloaded) and once on an unmatched `linux-386`
host (no-compatible-asset error naming `linux-386`, no download). -/
theorem asset_selection_spec_holds :
    (Install (demoEnv "linux" "amd64" "https://dl.example/linux") ⟨none, []⟩ demoPkg).calls
      = [releaseURL demoPkg, "https://dl.example/linux"]
    ∧ (Install (demoEnv "linux" "386" "https://dl.example/linux") ⟨none, []⟩ demoPkg).result
      = some (.noCompatibleAsset "linux-386")
    ∧ (Install (demoEnv "linux" "386" "https://dl.example/linux") ⟨none, []⟩ demoPkg).calls
      = [releaseURL demoPkg] := by
  have h1 := asset_selection_spec (demoEnv "linux" "amd64" "https://dl.example/linux")
    ⟨none, []⟩ demoPkg (.json (demoRelease "https://dl.example/linux"))
    (demoReleaseData "https://dl.example/linux") (by decide) rfl (by rfl)
  have h2 := asset_selection_spec (demoEnv "linux" "386" "https://dl.example/linux")
    ⟨none, []⟩ demoPkg (.json (demoRelease "https://dl.example/linux"))
    (demoReleaseData "https://dl.example/linux") (by decide) rfl (by rfl)
  refine ⟨?_, ?_, ?_⟩
  · exact h1.1 ⟨"tool-linux-amd64.tar.gz", "https://dl.example/linux"⟩
      (by rfl) (by decide) rfl
  · exact (h2.2.1 (by rfl)).1
  · exact (h2.2.1 (by rfl)).2

/-- C4: a successful `Install` into a previously empty install state (absent
manifest file, or one holding the empty sequence) followed by `List` yields
exactly one record, carrying the installed identity, the release's resolved
tag as `version` and the selected asset's name as `file`. -/
theorem install_then_list (env : Env) (fs : FS) (pkg : Package)
    (body : RawData) (rd : ReleaseData) (a : ReleaseAsset)
    (hplat : getPlatform env.os env.arch ≠ "unknown-unknown")
    (hresp : env.releaseResp = .response 200 body)
    (hdec : decodeBody body = .ok rd)
    (hfind : rd.assets.find?
        (fun x => strContains (strToLower x.name) (getPlatform env.os env.arch)) = some a)
    (hurl : a.url ≠ "")
    (hmk : env.mkdirOk = true)
    (hdl : env.downloadResp a.url = .response 200 ())
    (hempty : listInstalledPackages fs.manifest = .error .notExist
      ∨ listInstalledPackages fs.manifest = .ok []) :
    (Install env fs pkg).result = none
    ∧ ListInstalledStars (Install env fs pkg).fs
        = .ok [{ pkg with version := rd.tagName, file := a.name }] := by
  have hplatb : (getPlatform env.os env.arch == "unknown-unknown") = false := by
    simp [hplat]
  have hurlb : (a.url == "") = false := by simp [hurl]
  have hup : ∀ files2,
      updateStarsFile { pkg with version := rd.tagName, file := a.name } ⟨fs.manifest, files2⟩
        = (none, ⟨some (saveInstalledPackages [{ pkg with version := rd.tagName, file := a.name }]),
            files2⟩) := by
    intro files2
    rcases hempty with h | h <;> simp [updateStarsFile, h]
  constructor <;> unfold Install <;>
    simp [hplatb, hresp, hdec, hfind, hurlb, hmk, hdl, hup,
      ListInstalledStars, listInstalledPackages_save]

/-- C4 witness: installing the worked scenario's identity on a fresh state
and listing the result. -/
theorem install_then_list_holds :
    (Install (demoEnv "linux" "amd64" "https://dl.example/linux") ⟨none, []⟩ demoPkg).result
      = none
    ∧ ListInstalledStars
        (Install (demoEnv "linux" "amd64" "https://dl.example/linux") ⟨none, []⟩ demoPkg).fs
      = .ok [⟨"alice", "tool", "v1.0.0", "tool-linux-amd64.tar.gz"⟩] :=
  install_then_list (demoEnv "linux" "amd64" "https://dl.example/linux") ⟨none, []⟩ demoPkg
    (.json (demoRelease "https://dl.example/linux"))
    (demoReleaseData "https://dl.example/linux")
    ⟨"tool-linux-amd64.tar.gz", "https://dl.example/linux"⟩
    (by decide) rfl (by rfl) (by rfl) (by decide) rfl rfl (Or.inl rfl)

/-- A state whose manifest loads accepts any append without error. -/
theorem updateStarsFile_ok_of_load (m : Option RawData) (l : List Package)
    (q : Package) (files2 : List String)
    (h : listInstalledPackages m = .ok l) :
    updateStarsFile q ⟨m, files2⟩ = (none, ⟨some (saveInstalledPackages (l ++ [q])), files2⟩) := by
  simp [updateStarsFile, h]

/-- When `Install` fails and the state's manifest accepts appends, the
filesystem is returned unchanged: every failing branch of `Install` precedes
the only state mutations (the downloaded file and the manifest append). -/
theorem install_fail_fs (env : Env) (fs : FS) (pkg : Package) (e : StarError)
    (hok : ∀ q files2, (updateStarsFile q ⟨fs.manifest, files2⟩).1 = none)
    (hfail : (Install env fs pkg).result = some e) :
    (Install env fs pkg).fs = fs := by
  unfold Install at hfail ⊢
  by_cases hplat : (getPlatform env.os env.arch == "unknown-unknown") = true
  · simp [hplat]
  · rcases hrel : env.releaseResp with _ | ⟨st, body⟩
    · simp [hplat, hrel]
    · by_cases hst : (st != 200) = true
      · simp [hplat, hrel, hst]
      · rcases hdec : decodeBody body with e2 | rd
        · simp [hplat, hrel, hst, hdec]
        · rcases hhit : rd.assets.find?
              (fun a => strContains (strToLower a.name) (getPlatform env.os env.arch))
            with _ | a
          · simp [hplat, hrel, hst, hdec, hhit]
          · by_cases hurl : (a.url == "") = true
            · simp [hplat, hrel, hst, hdec, hhit, hurl]
            · rcases hmk : env.mkdirOk with _ | _
              · simp [hplat, hrel, hst, hdec, hhit, hurl, hmk]
              · rcases hdl : env.downloadResp a.url with _ | ⟨ds, u⟩
                · simp [hplat, hrel, hst, hdec, hhit, hurl, hmk, hdl]
                · by_cases hds : (ds != 200) = true
                  · simp [hplat, hrel, hst, hdec, hhit, hurl, hmk, hdl, hds]
                  · simp [hplat, hrel, hst, hdec, hhit, hurl, hmk, hdl, hds, hok] at hfail

/-- C8: `Update` is exactly `Uninstall` then `Install` of the same identity;
when the `Uninstall` step succeeds and the `Install` step fails, `Update`
returns the `Install` failure and the identity is absent from both the
manifest (its records were filtered out) and the filesystem (the deleted
file is gone, and the failed `Install` mutated nothing) — the prior state is
not restored. -/
theorem update_install_failure (env : Env) (fs fs1 : FS) (pkg : Package)
    (packages : List Package) (p : Package) (e : StarError)
    (hL : listInstalledPackages fs.manifest = .ok packages)
    (hF : packages.find? (fun q => q.user == pkg.user && q.repo == pkg.repo) = some p)
    (hMem : p.file ∈ fs.files)
    (hnd : fs.files.Nodup)
    (hU : Uninstall fs pkg = (none, fs1))
    (hI : (Install env fs1 pkg).result = some e) :
    Update env fs pkg = Install env fs1 pkg
    ∧ (Update env fs pkg).result = some e
    ∧ (Update env fs pkg).fs = fs1
    ∧ ListInstalledStars fs1
        = .ok (packages.filter (fun q => !(q.user == pkg.user && q.repo == pkg.repo)))
    ∧ (∀ q ∈ packages.filter (fun q => !(q.user == pkg.user && q.repo == pkg.repo)),
        ¬(q.user = pkg.user ∧ q.repo = pkg.repo))
    ∧ p.file ∉ fs1.files := by
  have hUc : Uninstall fs pkg =
      (none, ⟨some (saveInstalledPackages
          (packages.filter (fun q => !(q.user == pkg.user && q.repo == pkg.repo)))),
        fs.files.erase p.file⟩) := by
    simp [Uninstall, hL, hF, hMem]
  have hfs1 : fs1 = ⟨some (saveInstalledPackages
      (packages.filter (fun q => !(q.user == pkg.user && q.repo == pkg.repo)))),
      fs.files.erase p.file⟩ := by
    have h := hU.symm.trans hUc
    simpa using h
  have hUp : Update env fs pkg = Install env fs1 pkg := by
    unfold Update
    rw [hU]
  have hok : ∀ q files2, (updateStarsFile q ⟨fs1.manifest, files2⟩).1 = none := by
    intro q files2
    rw [hfs1]
    simp [updateStarsFile, listInstalledPackages_save]
  have hfsEq : (Install env fs1 pkg).fs = fs1 := install_fail_fs env fs1 pkg e hok hI
  refine ⟨hUp, ?_, ?_, ?_, ?_, ?_⟩
  · rw [hUp]
    exact hI
  · rw [hUp]
    exact hfsEq
  · rw [hfs1]
    simp [ListInstalledStars, listInstalledPackages_save]
  · intro q hq hcontra
    rcases hcontra with ⟨h1, h2⟩
    rw [List.mem_filter] at hq
    rcases hq with ⟨_, hb⟩
    simp [h1, h2] at hb
  · rw [hfs1]
    show p.file ∉ fs.files.erase p.file
    exact (hnd.mem_erase_iff).not.mpr (by simp)

/-- C8 witness: `demoRecord` is installed; `Update` uninstalls it and the
reinstall hits a 404 from the release endpoint, leaving the identity gone
from the manifest and its file gone from disk. -/
theorem update_install_failure_holds :
    Update demoEnv404 demoFS demoPkg
      = Install demoEnv404 ⟨some (saveInstalledPackages []), []⟩ demoPkg
    ∧ (Update demoEnv404 demoFS demoPkg).result = some (.fetchStatus 404)
    ∧ (Update demoEnv404 demoFS demoPkg).fs = ⟨some (saveInstalledPackages []), []⟩
    ∧ ListInstalledStars ⟨some (saveInstalledPackages []), []⟩ = .ok []
    ∧ "tool-linux-amd64" ∉ (⟨some (saveInstalledPackages []), []⟩ : FS).files := by
  have h := update_install_failure demoEnv404 demoFS ⟨some (saveInstalledPackages []), []⟩
    demoPkg [demoRecord] demoRecord (.fetchStatus 404)
    (by rfl) (by rfl) (by decide) (by decide) (by rfl) (by rfl)
  exact ⟨h.1, h.2.1, h.2.2.1, h.2.2.2.1, h.2.2.2.2.2⟩
